import Mathlib

/-!
Shallow embedding of the repository's two modules
(`0x02-redis_basic/exercise.py` and `0x02-redis_basic/web.py`),
together with proofs of the specification's claims about them.

Both modules are thin glue over a Redis client.  The embedding models:
  * byte strings as `List Nat` (one entry per byte),
  * the Redis database as a function from keys to typed entries with
    optional expiration, plus a clock (for `SETEX` time-to-live),
  * Python-level exceptions with `Except`,
  * the decorator-based instrumentation of `Cache.store` as higher-order
    functions mirroring `count_calls` and `call_history`, with an explicit
    trace of issued Redis commands so that effect ordering is provable.
-/

/-! ## Bytes and UTF-8

redis-py encodes `str` arguments as UTF-8 before sending them to the
server and returns raw bytes from `GET`/`LRANGE`; `bytes.decode('utf-8')`
is the inverse used by the source.  We model both directions explicitly.
The decoder recurses on a fuel argument (one unit per decoded character)
so that it is structurally recursive and evaluates inside the kernel.
-/

/-- Byte strings, one `Nat` per byte. -/
abbrev Bytes := List Nat

/-- UTF-8 encoding of a single unicode scalar value (a `Char`). -/
def utf8Enc (c : Char) : Bytes :=
  let v := c.toNat
  if v < 0x80 then [v]
  else if v < 0x800 then [0xC0 + v / 64, 0x80 + v % 64]
  else if v < 0x10000 then [0xE0 + v / 4096, 0x80 + v / 64 % 64, 0x80 + v % 64]
  else [0xF0 + v / 262144, 0x80 + v / 4096 % 64, 0x80 + v / 64 % 64, 0x80 + v % 64]

/-- UTF-8 encoding of a Python `str` (model of `s.encode('utf-8')`). -/
def strToBytes (s : String) : Bytes := s.data.flatMap utf8Enc

/-- Continuation of UTF-8 decoding after a two-byte leading byte. -/
def utf8Dec2 (k : Bytes → Option (List Char)) (b0 : Nat) : Bytes → Option (List Char)
  | b1 :: rest =>
    if 0x80 ≤ b1 ∧ b1 < 0xC0 then
      (k rest).map (fun cs => Char.ofNat ((b0 - 0xC0) * 64 + (b1 - 0x80)) :: cs)
    else none
  | [] => none

/-- Continuation of UTF-8 decoding after a three-byte leading byte;
rejects overlong forms and surrogates. -/
def utf8Dec3 (k : Bytes → Option (List Char)) (b0 : Nat) : Bytes → Option (List Char)
  | b1 :: b2 :: rest =>
    if 0x80 ≤ b1 ∧ b1 < 0xC0 ∧ 0x80 ≤ b2 ∧ b2 < 0xC0 then
      let v := (b0 - 0xE0) * 4096 + (b1 - 0x80) * 64 + (b2 - 0x80)
      if v < 0x800 ∨ (0xD800 ≤ v ∧ v < 0xE000) then none
      else (k rest).map (fun cs => Char.ofNat v :: cs)
    else none
  | _ => none

/-- Continuation of UTF-8 decoding after a four-byte leading byte;
rejects overlong forms and values beyond the unicode range. -/
def utf8Dec4 (k : Bytes → Option (List Char)) (b0 : Nat) : Bytes → Option (List Char)
  | b1 :: b2 :: b3 :: rest =>
    if 0x80 ≤ b1 ∧ b1 < 0xC0 ∧ 0x80 ≤ b2 ∧ b2 < 0xC0 ∧ 0x80 ≤ b3 ∧ b3 < 0xC0 then
      let v := (b0 - 0xF0) * 262144 + (b1 - 0x80) * 4096 +
               (b2 - 0x80) * 64 + (b3 - 0x80)
      if v < 0x10000 ∨ 0x110000 ≤ v then none
      else (k rest).map (fun cs => Char.ofNat v :: cs)
    else none
  | _ => none

/-- Fuel-indexed strict UTF-8 decoder; one unit of fuel per character. -/
def bytesToCharsAux : Nat → Bytes → Option (List Char)
  | _, [] => some []
  | 0, _ :: _ => none
  | fuel + 1, b0 :: rest =>
    if b0 < 0x80 then (bytesToCharsAux fuel rest).map (fun cs => Char.ofNat b0 :: cs)
    else if b0 < 0xC2 then none
    else if b0 < 0xE0 then utf8Dec2 (bytesToCharsAux fuel) b0 rest
    else if b0 < 0xF0 then utf8Dec3 (bytesToCharsAux fuel) b0 rest
    else if b0 < 0xF5 then utf8Dec4 (bytesToCharsAux fuel) b0 rest
    else none

/-- Strict UTF-8 decoding of a byte string into unicode scalar values
(the byte count bounds the character count, so it is enough fuel). -/
def bytesToChars (l : Bytes) : Option (List Char) := bytesToCharsAux l.length l

/-- Model of `b.decode('utf-8')`: `none` means `UnicodeDecodeError`. -/
def bytesToStr (b : Bytes) : Option String := (bytesToChars b).map String.mk

theorem bytesToCharsAux_nil (fuel : Nat) : bytesToCharsAux fuel [] = some [] := by
  cases fuel <;> rfl

/-- Decoding inverts encoding, one character at a time. -/
theorem bytesToCharsAux_utf8Enc (c : Char) (f : Nat) (bs : Bytes) :
    bytesToCharsAux (f + 1) (utf8Enc c ++ bs) =
      (bytesToCharsAux f bs).map (fun cs => c :: cs) := by
  have hvalid : c.toNat < 0xd800 ∨ (0xdfff < c.toNat ∧ c.toNat < 0x110000) := c.valid
  have hofNat : Char.ofNat c.toNat = c := Char.ofNat_toNat c
  by_cases h1 : c.toNat < 0x80
  · rw [show utf8Enc c = [c.toNat] from by rw [utf8Enc]; rw [if_pos h1]]
    show bytesToCharsAux (f + 1) (c.toNat :: bs) = _
    rw [bytesToCharsAux]
    rw [if_pos h1, hofNat]
  · by_cases h2 : c.toNat < 0x800
    · rw [show utf8Enc c = [0xC0 + c.toNat / 64, 0x80 + c.toNat % 64] from by
        rw [utf8Enc]; rw [if_neg h1, if_pos h2]]
      show bytesToCharsAux (f + 1) ((0xC0 + c.toNat / 64) :: (0x80 + c.toNat % 64) :: bs) = _
      rw [bytesToCharsAux]
      rw [if_neg (by omega), if_neg (by omega), if_pos (by omega)]
      rw [utf8Dec2]
      rw [if_pos (by omega)]
      rw [show (0xC0 + c.toNat / 64 - 0xC0) * 64 + (0x80 + c.toNat % 64 - 0x80)
          = c.toNat from by omega, hofNat]
    · by_cases h3 : c.toNat < 0x10000
      · rw [show utf8Enc c = [0xE0 + c.toNat / 4096, 0x80 + c.toNat / 64 % 64,
            0x80 + c.toNat % 64] from by rw [utf8Enc]; rw [if_neg h1, if_neg h2, if_pos h3]]
        show bytesToCharsAux (f + 1) ((0xE0 + c.toNat / 4096) ::
          (0x80 + c.toNat / 64 % 64) :: (0x80 + c.toNat % 64) :: bs) = _
        rw [bytesToCharsAux]
        rw [if_neg (by omega), if_neg (by omega), if_neg (by omega), if_pos (by omega)]
        rw [utf8Dec3]
        rw [if_pos (by omega)]
        simp only
        rw [if_neg (by omega)]
        rw [show (0xE0 + c.toNat / 4096 - 0xE0) * 4096 +
            (0x80 + c.toNat / 64 % 64 - 0x80) * 64 + (0x80 + c.toNat % 64 - 0x80)
            = c.toNat from by omega, hofNat]
      · rw [show utf8Enc c = [0xF0 + c.toNat / 262144, 0x80 + c.toNat / 4096 % 64,
            0x80 + c.toNat / 64 % 64, 0x80 + c.toNat % 64] from by
          rw [utf8Enc]; rw [if_neg h1, if_neg h2, if_neg h3]]
        show bytesToCharsAux (f + 1) ((0xF0 + c.toNat / 262144) ::
          (0x80 + c.toNat / 4096 % 64) :: (0x80 + c.toNat / 64 % 64) ::
          (0x80 + c.toNat % 64) :: bs) = _
        rw [bytesToCharsAux]
        rw [if_neg (by omega), if_neg (by omega), if_neg (by omega), if_neg (by omega),
          if_pos (by omega)]
        rw [utf8Dec4]
        rw [if_pos (by omega)]
        simp only
        rw [if_neg (by omega)]
        rw [show (0xF0 + c.toNat / 262144 - 0xF0) * 262144 +
            (0x80 + c.toNat / 4096 % 64 - 0x80) * 4096 +
            (0x80 + c.toNat / 64 % 64 - 0x80) * 64 + (0x80 + c.toNat % 64 - 0x80)
            = c.toNat from by omega, hofNat]

/-- Decoding inverts encoding on whole character lists, with any leftover. -/
theorem bytesToCharsAux_flatMap (cs : List Char) (f : Nat) (bs : Bytes) :
    bytesToCharsAux (cs.length + f) (cs.flatMap utf8Enc ++ bs) =
      (bytesToCharsAux f bs).map (fun tl => cs ++ tl) := by
  induction cs generalizing f with
  | nil =>
    simp only [List.flatMap_nil, List.nil_append, List.length_nil, Nat.zero_add]
    cases bytesToCharsAux f bs <;> rfl
  | cons c tl ih =>
    have : (c :: tl).flatMap utf8Enc ++ bs = utf8Enc c ++ (tl.flatMap utf8Enc ++ bs) := by
      simp [List.flatMap_cons, List.append_assoc]
    rw [this, show (c :: tl).length + f = (tl.length + f) + 1 from by simp; omega,
      bytesToCharsAux_utf8Enc, ih]
    cases bytesToCharsAux f bs <;> rfl

theorem utf8Enc_length_pos (c : Char) : 1 ≤ (utf8Enc c).length := by
  rw [utf8Enc]
  split
  · simp
  · split
    · simp
    · split <;> simp

/-- UTF-8 round trip at the `String` level: decoding an encoded string
gives back the string (model of `s.encode('utf-8').decode('utf-8') == s`). -/
theorem bytesToStr_strToBytes (s : String) : bytesToStr (strToBytes s) = some s := by
  have hlen : s.data.length ≤ (s.data.flatMap utf8Enc).length := by
    induction s.data with
    | nil => simp
    | cons c tl ih =>
      simp only [List.flatMap_cons, List.length_append, List.length_cons]
      have := utf8Enc_length_pos c
      omega
  have key := bytesToCharsAux_flatMap s.data ((s.data.flatMap utf8Enc).length - s.data.length) []
  rw [List.append_nil, bytesToCharsAux_nil] at key
  rw [show s.data.length + ((s.data.flatMap utf8Enc).length - s.data.length)
      = (s.data.flatMap utf8Enc).length from by omega] at key
  show (bytesToChars (strToBytes s)).map String.mk = some s
  rw [bytesToChars, strToBytes, key]
  simp

/-- Encoding a nonempty string yields nonempty bytes. -/
theorem strToBytes_ne_nil {s : String} (h : s.data ≠ []) : strToBytes s ≠ [] := by
  intro hcontra
  rcases hd : s.data with _ | ⟨c, tl⟩
  · exact h hd
  · have h1 := utf8Enc_length_pos c
    have : strToBytes s = utf8Enc c ++ tl.flatMap utf8Enc := by
      rw [strToBytes, hd, List.flatMap_cons]
    rw [this] at hcontra
    have := congrArg List.length hcontra
    simp only [List.length_append, List.length_nil] at this
    omega

/-! ## Decimal rendering and parsing

Redis represents counters as decimal ASCII strings: `INCR` parses the
stored value as an integer and stores back the decimal rendering, and
redis-py encodes an `int` argument of `SET` as its decimal string. -/

/-- Little-endian base-10 digits, structurally recursive on a fuel
bound so that it evaluates inside the kernel. -/
def natDigitsAux : Nat → Nat → List Nat
  | _, 0 => []
  | 0, _ + 1 => []
  | f + 1, n + 1 => (n + 1) % 10 :: natDigitsAux f ((n + 1) / 10)

/-- Little-endian base-10 digits of a natural number. -/
def natDigits (n : Nat) : List Nat := natDigitsAux n n

theorem natDigitsAux_eq (f : Nat) : ∀ n, n ≤ f → natDigitsAux f n = Nat.digits 10 n := by
  induction f with
  | zero =>
    intro n hn
    interval_cases n
    simp [natDigitsAux, Nat.digits_zero]
  | succ f ih =>
    intro n hn
    match n with
    | 0 => simp [natDigitsAux, Nat.digits_zero]
    | m + 1 =>
      rw [natDigitsAux]
      rw [ih ((m + 1) / 10) (by omega)]
      rw [Nat.digits_def' (by norm_num) (Nat.succ_pos m)]

theorem natDigits_eq (n : Nat) : natDigits n = Nat.digits 10 n :=
  natDigitsAux_eq n n le_rfl

/-- Decimal ASCII rendering of a natural number. -/
def natBytes (n : Nat) : Bytes :=
  if n = 0 then [48] else (natDigits n).reverse.map (fun d => d + 48)

/-- Decimal ASCII rendering of an integer (model of `str(n).encode()`). -/
def intBytes (n : Int) : Bytes :=
  if n < 0 then 45 :: natBytes n.natAbs else natBytes n.toNat

/-- Parse an unsigned decimal ASCII string. -/
def parseNatB (l : Bytes) : Option Nat :=
  if l ≠ [] ∧ l.all (fun b => 48 ≤ b && b ≤ 57) then
    some (l.foldl (fun a b => a * 10 + (b - 48)) 0)
  else none

/-- Parse a decimal ASCII string with optional leading minus sign
(model of the integer parsing done by `INCR` and by Python `int(b)`). -/
def parseIntB (l : Bytes) : Option Int :=
  match l with
  | [] => none
  | b :: rest =>
    if b = 45 then (parseNatB rest).map (fun n => -(n : Int))
    else (parseNatB (b :: rest)).map (fun n => (n : Int))

theorem foldl_digits (ds : List Nat) (acc : Nat) :
    (ds.reverse.map (fun d => d + 48)).foldl (fun a b => a * 10 + (b - 48)) acc
      = acc * 10 ^ ds.length + Nat.ofDigits 10 ds := by
  induction ds generalizing acc with
  | nil => simp [Nat.ofDigits]
  | cons d tl ih =>
    simp only [List.reverse_cons, List.map_append, List.foldl_append, ih,
      List.map_cons, List.map_nil, List.foldl_cons, List.foldl_nil,
      Nat.ofDigits_cons, List.length_cons]
    have hd : d + 48 - 48 = d := by omega
    rw [hd, pow_succ]
    ring

theorem natBytes_all_digits (n : Nat) : ∀ b ∈ natBytes n, 48 ≤ b ∧ b ≤ 57 := by
  intro b hb
  rw [natBytes, natDigits_eq] at hb
  split at hb
  · simp at hb
    omega
  · simp only [List.mem_map, List.mem_reverse] at hb
    obtain ⟨d, hd, rfl⟩ := hb
    have := Nat.digits_lt_base (by norm_num) hd
    omega

theorem natBytes_ne_nil (n : Nat) : natBytes n ≠ [] := by
  rw [natBytes, natDigits_eq]
  split
  · simp
  · rename_i h
    simp only [ne_eq, List.map_eq_nil_iff, List.reverse_eq_nil_iff]
    intro hnil
    exact h (Nat.digits_eq_nil_iff_eq_zero.mp hnil)

theorem parseNatB_natBytes (n : Nat) : parseNatB (natBytes n) = some n := by
  rw [parseNatB, if_pos]
  · rcases h : Nat.eq_zero_or_pos n with h0 | h0
    · subst h0
      rfl
    · rw [natBytes, if_neg (by omega), natDigits_eq]
      rw [foldl_digits (Nat.digits 10 n) 0]
      simp [Nat.ofDigits_digits]
  · constructor
    · exact natBytes_ne_nil n
    · rw [List.all_eq_true]
      intro b hb
      have := natBytes_all_digits n b hb
      simp only [Bool.and_eq_true, decide_eq_true_eq]
      omega

theorem parseIntB_cons (b : Nat) (rest : Bytes) :
    parseIntB (b :: rest) =
      if b = 45 then (parseNatB rest).map (fun n => -(n : Int))
      else (parseNatB (b :: rest)).map (fun n => (n : Int)) := rfl

theorem parseIntB_intBytes (n : Int) : parseIntB (intBytes n) = some n := by
  by_cases hn : n < 0
  · have h1 : intBytes n = 45 :: natBytes n.natAbs := by
      simp only [intBytes, if_pos hn]
    rw [h1, parseIntB_cons]
    rw [if_pos rfl, parseNatB_natBytes]
    refine congrArg some ?_
    show -(n.natAbs : Int) = n
    omega
  · obtain ⟨b, rest, hb, hdig⟩ : ∃ b rest, natBytes n.toNat = b :: rest ∧ 48 ≤ b := by
      rcases hb : natBytes n.toNat with _ | ⟨b, rest⟩
      · exact absurd hb (natBytes_ne_nil _)
      · exact ⟨b, rest, rfl, (natBytes_all_digits _ b (hb ▸ List.mem_cons_self b rest)).1⟩
    have h1 : intBytes n = b :: rest := by
      simp only [intBytes, if_neg hn]
      exact hb
    rw [h1, parseIntB_cons]
    rw [if_neg (by omega), ← hb, parseNatB_natBytes]
    refine congrArg some ?_
    show (n.toNat : Int) = n
    omega

/-- Render an ASCII byte string as a `String` (used to model formatting
an integer into printed output: `str(n)`). -/
def asciiOfBytes (b : Bytes) : String := String.mk (b.map Char.ofNat)

/-- Model of Python `str(n)` for an integer. -/
def intStr (n : Int) : String := asciiOfBytes (intBytes n)

/-! ## The Redis store model

State of the single Redis database the code talks to: a clock (for
`SETEX` expiration) and a partial map from keys to typed entries.
Redis values used by the source are byte strings and lists of byte
strings; an entry may carry an absolute expiration time.  An expired
entry behaves as absent (`lookup`), matching the store-side expiry the
spec delegates to. -/

/-- Python-level exceptions surfaced by the modelled code paths. -/
inductive PyErr where
  /-- `AttributeError` (e.g. calling a method on `None`). -/
  | attributeErr
  /-- `TypeError` (e.g. `int(None)`). -/
  | typeErr
  /-- `ValueError` (e.g. `int(b'xyz')`). -/
  | valueErr
  /-- redis `WRONGTYPE` response (string command on a list key or back). -/
  | wrongType
  /-- redis `value is not an integer` response from `INCR`. -/
  | notInteger
  /-- `UnicodeDecodeError` from `bytes.decode('utf-8')`. -/
  | decodeErr
deriving DecidableEq

/-- A Redis value: a byte string or a list of byte strings. -/
inductive RVal where
  | str (b : Bytes)
  | list (l : List Bytes)
deriving DecidableEq

/-- A stored entry: value plus optional absolute expiration time. -/
structure Entry where
  val : RVal
  expiresAt : Option Nat
deriving DecidableEq

/-- The Redis database: current time and keyspace. -/
structure Store where
  now : Nat
  data : String → Option Entry

/-- Entry lookup respecting expiration: an entry whose expiration time
has been reached behaves as absent. -/
def Store.lookup (st : Store) (k : String) : Option RVal :=
  match st.data k with
  | none => none
  | some e =>
    match e.expiresAt with
    | none => some e.val
    | some t => if st.now < t then some e.val else none

/-- Write an entry at a key. -/
def Store.write (st : Store) (k : String) (e : Entry) : Store :=
  { st with data := fun k2 => if k2 = k then some e else st.data k2 }

/-- Model of `SET key b` (no expiration; clears any previous TTL). -/
def Store.setCmd (st : Store) (k : String) (b : Bytes) : Store :=
  st.write k ⟨.str b, none⟩

/-- Model of `SETEX key ttl b`: sets with an absolute expiration time. -/
def Store.setexCmd (st : Store) (k : String) (ttl : Nat) (b : Bytes) : Store :=
  st.write k ⟨.str b, some (st.now + ttl)⟩

/-- Model of `GET key`: `none` for an absent key, `WRONGTYPE` on a list. -/
def Store.getCmd (st : Store) (k : String) : Except PyErr (Option Bytes) :=
  match st.lookup k with
  | none => .ok none
  | some (.str b) => .ok (some b)
  | some (.list _) => .error .wrongType

/-- Model of `INCR key`: parses the value as an integer (0 when absent),
adds one, stores the decimal rendering back (preserving any TTL), and
returns the new value. -/
def Store.incrCmd (st : Store) (k : String) : Except PyErr (Store × Int) :=
  match st.lookup k with
  | none => .ok (st.write k ⟨.str (intBytes 1), none⟩, 1)
  | some (.str b) =>
    match parseIntB b with
    | some n => .ok (st.write k ⟨.str (intBytes (n + 1)), (st.data k).bind Entry.expiresAt⟩, n + 1)
    | none => .error .notInteger
  | some (.list _) => .error .wrongType

/-- Model of `RPUSH key b` (single value): appends to the list at the
key, creating it when absent; `WRONGTYPE` on a string key. -/
def Store.rpushCmd (st : Store) (k : String) (b : Bytes) : Except PyErr Store :=
  match st.lookup k with
  | none => .ok (st.write k ⟨.list [b], none⟩)
  | some (.list l) => .ok (st.write k ⟨.list (l ++ [b]), (st.data k).bind Entry.expiresAt⟩)
  | some (.str _) => .error .wrongType

/-- Model of `LRANGE key 0 -1`: the whole list, `[]` when absent. -/
def Store.lrangeAll (st : Store) (k : String) : Except PyErr (List Bytes) :=
  match st.lookup k with
  | none => .ok []
  | some (.list l) => .ok l
  | some (.str _) => .error .wrongType

/-- Model of `EXISTS key`. -/
def Store.existsCmd (st : Store) (k : String) : Nat :=
  if (st.lookup k).isSome then 1 else 0

/-- Model of `FLUSHDB`: the keyspace is emptied before the command
returns whether or not the `asynchronous` flag is set; the flag only
defers memory reclamation, which the model does not track. -/
def Store.flushdbCmd (st : Store) (_asynchronous : Bool) : Store :=
  { now := st.now, data := fun _ => none }

/-- Advance the store's clock by `d` time units (seconds). -/
def Store.advance (st : Store) (d : Nat) : Store :=
  { st with now := st.now + d }

/-- A completely empty database at time `t`. -/
def emptyStore (t : Nat) : Store := { now := t, data := fun _ => none }

theorem Store.write_data (st : Store) (k : String) (e : Entry) (k2 : String) :
    (st.write k e).data k2 = if k2 = k then some e else st.data k2 := rfl

theorem Store.lookup_write_self (st : Store) (k : String) (v : RVal) :
    (st.write k ⟨v, none⟩).lookup k = some v := by
  simp [Store.lookup, Store.write]

theorem Store.lookup_write_ne (st : Store) (k : String) (e : Entry) (k2 : String)
    (h : k2 ≠ k) : (st.write k e).lookup k2 = st.lookup k2 := by
  simp [Store.lookup, Store.write, h]

theorem Store.lookup_setCmd_self (st : Store) (k : String) (b : Bytes) :
    (st.setCmd k b).lookup k = some (.str b) :=
  Store.lookup_write_self st k (.str b)

theorem Store.incrCmd_absent (st : Store) (k : String) (h : st.lookup k = none) :
    st.incrCmd k = .ok (st.write k ⟨.str (intBytes 1), none⟩, 1) := by
  rw [Store.incrCmd, h]

theorem Store.incrCmd_int (st : Store) (k : String) (m : Int)
    (h : st.data k = some ⟨.str (intBytes m), none⟩) :
    st.incrCmd k = .ok (st.write k ⟨.str (intBytes (m + 1)), none⟩, m + 1) := by
  have hl : st.lookup k = some (.str (intBytes m)) := by
    rw [Store.lookup, h]
  rw [Store.incrCmd, hl]
  simp [parseIntB_intBytes, h]

theorem Store.rpushCmd_absent (st : Store) (k : String) (b : Bytes)
    (h : st.lookup k = none) :
    st.rpushCmd k b = .ok (st.write k ⟨.list [b], none⟩) := by
  rw [Store.rpushCmd, h]

theorem Store.rpushCmd_list (st : Store) (k : String) (b : Bytes) (l : List Bytes)
    (h : st.data k = some ⟨.list l, none⟩) :
    st.rpushCmd k b = .ok (st.write k ⟨.list (l ++ [b]), none⟩) := by
  have hl : st.lookup k = some (.list l) := by
    rw [Store.lookup, h]
  rw [Store.rpushCmd, hl]
  simp [h]

theorem Store.rpushCmd_str (st : Store) (k : String) (b : Bytes) (b2 : Bytes)
    (h : st.lookup k = some (.str b2)) : st.rpushCmd k b = .error .wrongType := by
  rw [Store.rpushCmd, h]

/-! ## Model of `exercise.py`

`Cache` holds `self._redis`; both decorators guard their Redis calls with
`isinstance(self._redis, redis.Redis)`.  We model `self._redis` as
`Option Store`: `some st` is a live `redis.Redis` connection with
database state `st`, `none` models a substituted non-Redis object (the
spec's "not bound to a live store connection", e.g. a mock or `None`),
on which the guarded calls are skipped and unguarded attribute access
raises `AttributeError`.

`uuid.uuid4()` is nondeterministic, so the generated key is an explicit
parameter of the modelled method.  Methods additionally return the trace
of Redis commands they issued, so that ordering claims are provable. -/

/-- The Python value types accepted by `Cache.store`
(`Union[str, bytes, int, float]`; `float` is omitted from the model
because floating point does not translate to the shallow embedding, and
no claim exercises it). -/
inductive PyData where
  | str (s : String)
  | bytes (b : Bytes)
  | int (n : Int)
deriving DecidableEq

/-- redis-py's encoding of a command argument into raw bytes:
`str` is UTF-8 encoded, `bytes` passes through, `int` becomes its
decimal string. -/
def encodeData : PyData → Bytes
  | .str s => strToBytes s
  | .bytes b => b
  | .int n => intBytes n

/-- Lower-case hexadecimal digit. -/
def hexDigit (n : Nat) : Char :=
  Char.ofNat (if n < 10 then 48 + n else 87 + n)

/-- Model of Python `repr` escaping for one character of a `str`
(backslash and quote escaped, control characters hex-escaped,
other characters kept). -/
def pyCharEsc (c : Char) : List Char :=
  if c.toNat = 92 then [Char.ofNat 92, Char.ofNat 92]
  else if c.toNat = 39 then [Char.ofNat 92, Char.ofNat 39]
  else if c.toNat < 32 ∨ c.toNat = 127 then
    [Char.ofNat 92, 'x', hexDigit (c.toNat / 16), hexDigit (c.toNat % 16)]
  else [c]

/-- Model of Python `repr(s)` for a `str` (single-quoted). -/
def pyReprStr (s : String) : String :=
  String.mk (Char.ofNat 39 :: (s.data.flatMap pyCharEsc ++ [Char.ofNat 39]))

/-- Model of Python `repr` escaping for one byte of a `bytes` object
(printable ASCII kept, everything else hex-escaped). -/
def pyByteEsc (b : Nat) : List Char :=
  if b = 92 then [Char.ofNat 92, Char.ofNat 92]
  else if b = 39 then [Char.ofNat 92, Char.ofNat 39]
  else if 32 ≤ b ∧ b < 127 then [Char.ofNat b]
  else [Char.ofNat 92, 'x', hexDigit (b / 16 % 16), hexDigit (b % 16)]

/-- Model of Python `repr(b)` / `str(b)` for a `bytes` object. -/
def pyReprBytes (b : Bytes) : String :=
  String.mk ('b' :: Char.ofNat 39 :: (b.flatMap pyByteEsc ++ [Char.ofNat 39]))

/-- Model of Python `repr` of one stored value. -/
def pyReprData : PyData → String
  | .str s => pyReprStr s
  | .bytes b => pyReprBytes b
  | .int n => intStr n

/-- Model of `str(args)` in `call_history.invoker` for the one-argument
call `store(data)`: the `repr` of the singleton tuple `(data,)`. -/
def strArgs (d : PyData) : String := "(" ++ pyReprData d ++ ",)"

/-- One Redis command issued by the instrumented method, in order. -/
inductive Effect where
  | incr (key : String)
  | rpush (key : String) (b : Bytes)
  | set (key : String) (b : Bytes)
deriving DecidableEq

/-- The shape of (modelled) `Cache.store`-like methods: from the bound
`self._redis` and the method arguments (generated key, data) to either an
exception or (return value, updated `self._redis`, issued commands). -/
abbrev StoreMethod :=
  Option Store → String → PyData → Except PyErr (String × Option Store × List Effect)

/-- The undecorated body of `Cache.store`: `self._redis.set(data_key, data)`
then `return data_key`.  With a non-Redis `self._redis` the unguarded
attribute call raises. -/
def Cache.storeBody : StoreMethod := fun r dataKey d =>
  match r with
  | none => .error .attributeErr
  | some st =>
    .ok (dataKey, some (st.setCmd dataKey (encodeData d)), [.set dataKey (encodeData d)])

/-- Model of `count_calls`: increment the counter named by the wrapped
method's `__qualname__` (guarded by the isinstance check), then run the
method. -/
def count_calls_invoker (qualname : String) (method : StoreMethod) : StoreMethod :=
  fun r k d =>
  match r with
  | some st =>
    match st.incrCmd qualname with
    | .error e => .error e
    | .ok (st2, _) =>
      match method (some st2) k d with
      | .error e => .error e
      | .ok (out, r2, tr) => .ok (out, r2, .incr qualname :: tr)
  | none => method none k d

/-- Model of `call_history`: push `str(args)` onto `<qualname>:inputs`
(guarded), run the method, then push the output onto
`<qualname>:outputs` (guarded). -/
def call_history_invoker (qualname : String) (method : StoreMethod) : StoreMethod :=
  fun r k d =>
  match r with
  | some st =>
    match st.rpushCmd (qualname ++ ":inputs") (strToBytes (strArgs d)) with
    | .error e => .error e
    | .ok st2 =>
      match method (some st2) k d with
      | .error e => .error e
      | .ok (out, r2, tr) =>
        match r2 with
        | some st3 =>
          match st3.rpushCmd (qualname ++ ":outputs") (strToBytes out) with
          | .error e => .error e
          | .ok st4 =>
            .ok (out, some st4,
              .rpush (qualname ++ ":inputs") (strToBytes (strArgs d)) ::
                (tr ++ [.rpush (qualname ++ ":outputs") (strToBytes out)]))
        | none =>
          .ok (out, none,
            .rpush (qualname ++ ":inputs") (strToBytes (strArgs d)) :: tr)
  | none => method none k d

/-- The decorated `Cache.store`: `call_history` is the outer decorator
and `count_calls` the inner one, both registered under the qualified
name `Cache.store`. -/
def Cache.store : StoreMethod :=
  call_history_invoker "Cache.store" (count_calls_invoker "Cache.store" Cache.storeBody)

/-- The transforms `fn` actually passed to `Cache.get` by the source:
the UTF-8 decoding lambda of `get_str` and the `int` conversion of
`get_int`. -/
inductive GetFn where
  | decodeUtf8
  | toInt
deriving DecidableEq

/-- Python values returned by `Cache.get` and its typed wrappers. -/
inductive PyObj where
  | none
  | bytes (b : Bytes)
  | str (s : String)
  | int (n : Int)
deriving DecidableEq

/-- Applying the optional transform to the raw `GET` result exactly as
`fn(data)` does: on an absent key `data` is `None`, so `x.decode(...)`
raises `AttributeError` and `int(x)` raises `TypeError`. -/
def applyGetFn : GetFn → Option Bytes → Except PyErr PyObj
  | .decodeUtf8, Option.none => .error .attributeErr
  | .decodeUtf8, some b =>
    match bytesToStr b with
    | some s => .ok (.str s)
    | Option.none => .error .decodeErr
  | .toInt, Option.none => .error .typeErr
  | .toInt, some b =>
    match parseIntB b with
    | some n => .ok (.int n)
    | Option.none => .error .valueErr

/-- Model of `Cache.get`: raw `GET`, then `fn(data) if fn is not None
else data`. -/
def Cache.get (r : Option Store) (key : String) (fn : Option GetFn) :
    Except PyErr PyObj :=
  match r with
  | Option.none => .error .attributeErr
  | some st =>
    match st.getCmd key with
    | .error e => .error e
    | .ok data =>
      match fn with
      | Option.none =>
        .ok (match data with | Option.none => .none | some b => .bytes b)
      | some f => applyGetFn f data

/-- Model of `Cache.get_str`. -/
def Cache.get_str (r : Option Store) (key : String) : Except PyErr PyObj :=
  Cache.get r key (some .decodeUtf8)

/-- Model of `Cache.get_int`. -/
def Cache.get_int (r : Option Store) (key : String) : Except PyErr PyObj :=
  Cache.get r key (some .toInt)

/-- The literal argument `__init__` passes to `flushdb`: `True`, which
in redis-py's signature `flushdb(asynchronous=False)` selects an
asynchronous flush (`FLUSHDB ASYNC`). -/
def Cache.initFlushAsynchronous : Bool := true

/-- Model of `Cache.__init__` acting on the connected database:
`self._redis = redis.Redis()` then `self._redis.flushdb(True)`. -/
def Cache.init (st : Store) : Store :=
  st.flushdbCmd Cache.initFlushAsynchronous

/-! ## Model of `replay`

`replay(fn)` inspects its argument reflectively: it returns silently when
`fn` is `None`, when `fn` has no `__self__` (not a bound method), or when
`getattr(fn.__self__, '_redis', None)` is not a `redis.Redis`.  Otherwise
it prints the call count and one line per recorded `(input, output)`
pair.  The model returns the list of printed lines; `Except` carries the
exceptions a malformed database would cause.  (On an exception Python
would already have printed a prefix of the lines; the model only tracks
the completed, exception-free output.) -/

/-- The argument shapes `replay` distinguishes. -/
inductive ReplayArg where
  /-- `fn is None`. -/
  | noneArg
  /-- A callable without a `__self__` attribute (not a bound method). -/
  | unbound (qualname : String)
  /-- A bound method: its `__qualname__` and its instance's `_redis`
  attribute (`none` when absent or not a `redis.Redis`). -/
  | bound (qualname : String) (selfRedis : Option Store)

/-- One line of replay output:
`'{}(*{}) -> {}'.format(fxn_name, fxn_input.decode("utf-8"), fxn_output)`
(the output, a bytes object, is rendered with Python `str`). -/
def replayLine (qualname : String) (inp : Bytes) (outp : Bytes) :
    Except PyErr String :=
  match bytesToStr inp with
  | some s => .ok (qualname ++ "(*" ++ s ++ ") -> " ++ pyReprBytes outp)
  | none => .error .decodeErr

/-- Format all zipped (input, output) pairs, in recorded order. -/
def replayLines (qualname : String) : List (Bytes × Bytes) → Except PyErr (List String)
  | [] => .ok []
  | (i, o) :: tl =>
    match replayLine qualname i o with
    | .error e => .error e
    | .ok line =>
      match replayLines qualname tl with
      | .error e => .error e
      | .ok lines => .ok (line :: lines)

/-- The call count printed by `replay`:
`int(redis_store.get(fxn_name))` when the key exists, else 0. -/
def replayCount (st : Store) (qualname : String) : Except PyErr Int :=
  if st.existsCmd qualname ≠ 0 then
    match st.getCmd qualname with
    | .error e => .error e
    | .ok Option.none => .error .typeErr
    | .ok (some b) =>
      match parseIntB b with
      | some n => .ok n
      | Option.none => .error .valueErr
  else .ok 0

/-- Model of `replay`: the list of printed lines (empty for the silent
early returns). -/
def replay : ReplayArg → Except PyErr (List String)
  | .noneArg => .ok []
  | .unbound _ => .ok []
  | .bound _ Option.none => .ok []
  | .bound qualname (some st) =>
    match replayCount st qualname with
    | .error e => .error e
    | .ok n =>
      match st.lrangeAll (qualname ++ ":inputs") with
      | .error e => .error e
      | .ok ins =>
        match st.lrangeAll (qualname ++ ":outputs") with
        | .error e => .error e
        | .ok outs =>
          match replayLines qualname (ins.zip outs) with
          | .error e => .error e
          | .ok lines =>
            .ok ((qualname ++ " was called " ++ intStr n ++ " times:") :: lines)

/-! ## Model of `web.py`

`get_page` is `data_cacher` applied to the body that fetches the URL.
The body catches every `requests.RequestException` (connection errors
and the `raise_for_status` of a non-success response) and turns it into
a formatted error string; so the body itself never raises.  The
`requests.get` behaviour is a parameter `f` of the model; the returned
`Nat` counts how many times the wrapped body was invoked (equivalently,
how many times `requests.get` ran). -/

/-- Outcome of `requests.get(url)` followed by `raise_for_status()`. -/
inductive FetchOutcome where
  /-- A success (2xx) response with its body text. -/
  | success (text : String)
  /-- A `requests.RequestException` with its message
  (network error, or non-success status raised by `raise_for_status`). -/
  | failure (msg : String)
deriving DecidableEq

/-- The undecorated body of `get_page`: the try/except around
`requests.get` producing either `response.text` or the formatted error
string. -/
def get_page_body (f : String → FetchOutcome) (url : String) : String :=
  match f url with
  | .success t => t
  | .failure e => "Error fetching the URL: " ++ e

/-- Model of `data_cacher.invoker` applied to the `get_page` body:
increment `count:<url>`, return a truthy cached `result:<url>` decoded,
otherwise invoke the body and cache its result with `SETEX 10`. -/
def data_cacher_invoker (f : String → FetchOutcome) (st : Store) (url : String) :
    Except PyErr (String × Store × Nat) :=
  match st.incrCmd ("count:" ++ url) with
  | .error e => .error e
  | .ok (st1, _) =>
    match st1.getCmd ("result:" ++ url) with
    | .error e => .error e
    | .ok (some b) =>
      if b ≠ [] then
        match bytesToStr b with
        | some s => .ok (s, st1, 0)
        | Option.none => .error .decodeErr
      else
        let content := get_page_body f url
        .ok (content, st1.setexCmd ("result:" ++ url) 10 (strToBytes content), 1)
    | .ok Option.none =>
      let content := get_page_body f url
      .ok (content, st1.setexCmd ("result:" ++ url) 10 (strToBytes content), 1)

/-- The decorated `get_page`. -/
def get_page (f : String → FetchOutcome) (st : Store) (url : String) :
    Except PyErr (String × Store × Nat) :=
  data_cacher_invoker f st url

/-! ## Anatomy of a `Cache.store` call

A successful call of the decorated `Cache.store` always consists of the
four Redis commands in wrapper order: input `RPUSH` (outer wrapper,
before calling inward), counter `INCR` (inner wrapper), the body's
`SET`, and output `RPUSH` (outer wrapper, after the call returns). -/

theorem Store.rpushCmd_ok_lookup_ne {st : Store} {k : String} {b : Bytes} {st' : Store}
    (h : st.rpushCmd k b = .ok st') {k2 : String} (hne : k2 ≠ k) :
    st'.lookup k2 = st.lookup k2 := by
  cases hl : st.lookup k with
  | none =>
    rw [Store.rpushCmd, hl] at h
    cases h
    exact Store.lookup_write_ne _ _ _ _ hne
  | some v =>
    cases v with
    | str b2 =>
      rw [Store.rpushCmd, hl] at h
      simp at h
    | list l =>
      rw [Store.rpushCmd, hl] at h
      cases h
      exact Store.lookup_write_ne _ _ _ _ hne

theorem Cache.store_anatomy (st : Store) (k : String) (d : PyData) :
    (∃ e, Cache.store (some st) k d = .error e) ∨
    (∃ st1 p st4,
      st.rpushCmd "Cache.store:inputs" (strToBytes (strArgs d)) = .ok st1 ∧
      st1.incrCmd "Cache.store" = .ok p ∧
      (p.1.setCmd k (encodeData d)).rpushCmd "Cache.store:outputs" (strToBytes k) = .ok st4 ∧
      Cache.store (some st) k d = .ok (k, some st4,
        [.rpush "Cache.store:inputs" (strToBytes (strArgs d)),
         .incr "Cache.store", .set k (encodeData d),
         .rpush "Cache.store:outputs" (strToBytes k)])) := by
  cases h1 : st.rpushCmd "Cache.store:inputs" (strToBytes (strArgs d)) with
  | error e =>
    left
    exact ⟨e, by simp [Cache.store, call_history_invoker, h1]⟩
  | ok st1 =>
    cases h2 : st1.incrCmd "Cache.store" with
    | error e =>
      left
      refine ⟨e, ?_⟩
      simp [Cache.store, call_history_invoker, count_calls_invoker, h1, h2]
    | ok p =>
      cases h3 : (p.1.setCmd k (encodeData d)).rpushCmd "Cache.store:outputs"
          (strToBytes k) with
      | error e =>
        left
        refine ⟨e, ?_⟩
        simp [Cache.store, call_history_invoker, count_calls_invoker, Cache.storeBody,
          h1, h2, h3]
      | ok st4 =>
        right
        refine ⟨st1, p, st4, ?_, ?_, ?_, ?_⟩
        · first
          | exact rfl
          | exact h1
        · first
          | exact rfl
          | exact h2
        · first
          | exact rfl
          | exact h3
        · simp [Cache.store, call_history_invoker, count_calls_invoker, Cache.storeBody,
            h1, h2, h3]

/-- Whether an `Except` computation succeeded. -/
def okB {ε α : Type} : Except ε α → Bool
  | .ok _ => true
  | .error _ => false

/-- The scenario behind claim C1: store a value, then `get` the returned
identifier with no transform. -/
def storeThenGet (st : Store) (k : String) (d : PyData) : Except PyErr PyObj :=
  match Cache.store (some st) k d with
  | .error e => .error e
  | .ok (out, r', _) => Cache.get r' out Option.none

/-- The trace of Redis commands issued by a successful `Cache.store`. -/
def storeTrace (st : Store) (k : String) (d : PyData) : Option (List Effect) :=
  match Cache.store (some st) k d with
  | .error _ => Option.none
  | .ok (_, _, tr) => some tr

/-- C1: for every value stored via `Cache.store` (as text, binary, or
numeric), `Cache.get` on the returned identifier with no transform
yields the value's bytes back unchanged — exactly the raw bytes
redis-py wrote for it, and literally the same bytes object when the
value was supplied as `bytes`. -/
theorem claim1_store_get_roundtrip (st : Store) (k : String) (d : PyData)
    (h : okB (Cache.store (some st) k d) = true) :
    storeThenGet st k d = .ok (.bytes (encodeData d)) ∧
    (∀ b, d = .bytes b → encodeData d = b) := by
  rcases Cache.store_anatomy st k d with ⟨e, he⟩ | ⟨st1, p, st4, h1, h2, h3, h4⟩
  · rw [he] at h
    simp [okB] at h
  · constructor
    · have hkout : k ≠ "Cache.store:outputs" := by
        intro hk
        rw [hk] at h3
        rw [Store.rpushCmd_str _ _ _ (encodeData d) (Store.lookup_setCmd_self _ _ _)] at h3
        exact absurd h3 (by simp)
      have hget : st4.lookup k = some (.str (encodeData d)) := by
        rw [Store.rpushCmd_ok_lookup_ne h3 hkout]
        exact Store.lookup_setCmd_self _ _ _
      simp only [storeThenGet, h4]
      simp [Cache.get, Store.getCmd, hget]
    · intro b hb
      subst hb
      rfl

/-- Witness for C1 at a concrete input: storing the bytes `[1, 2, 3]`
into a freshly constructed cache and reading the returned key back
yields `[1, 2, 3]`. -/
theorem claim1_store_get_roundtrip_witness :
    okB (Cache.store (some (Cache.init (emptyStore 0))) "k0" (.bytes [1, 2, 3])) = true ∧
    storeThenGet (Cache.init (emptyStore 0)) "k0" (.bytes [1, 2, 3]) = .ok (.bytes [1, 2, 3]) :=
  ⟨by decide, (claim1_store_get_roundtrip _ "k0" _ (by decide)).1⟩

/-- C4 counterexample: on a concrete successful call the first side
effect is the input `RPUSH` (the outermost wrapper fires first), not the
counter `INCR` that the claim says comes first. -/
theorem claim4_counterexample :
    storeTrace (Cache.init (emptyStore 0)) "k0" (.int 5) =
      some [.rpush "Cache.store:inputs" [40, 53, 44, 41], .incr "Cache.store",
        .set "k0" [53], .rpush "Cache.store:outputs" [107, 48]] ∧
    Effect.rpush "Cache.store:inputs" [40, 53, 44, 41] ≠ Effect.incr "Cache.store" := by
  decide

/-- C4 (amended): on every successful call to the instrumented
`Cache.store` the side effects occur in this order: first the input is
appended to the input history (outermost wrapper), then the call counter
is incremented (innermost wrapper), then the underlying operation
executes, then the output is appended to the output history. -/
theorem claim4_effect_order (st : Store) (k : String) (d : PyData)
    (h : okB (Cache.store (some st) k d) = true) :
    storeTrace st k d = some
      [.rpush "Cache.store:inputs" (strToBytes (strArgs d)), .incr "Cache.store",
       .set k (encodeData d), .rpush "Cache.store:outputs" (strToBytes k)] := by
  rcases Cache.store_anatomy st k d with ⟨e, he⟩ | ⟨st1, p, st4, h1, h2, h3, h4⟩
  · rw [he] at h
    simp [okB] at h
  · simp only [storeTrace, h4]

/-- Witness for C4 (amended) at a concrete input. -/
theorem claim4_effect_order_witness :
    okB (Cache.store (some (Cache.init (emptyStore 0))) "k1" (.str "v")) = true ∧
    storeTrace (Cache.init (emptyStore 0)) "k1" (.str "v") = some
      [.rpush "Cache.store:inputs" [40, 39, 118, 39, 44, 41], .incr "Cache.store",
       .set "k1" [118], .rpush "Cache.store:outputs" [107, 49]] :=
  ⟨by decide, claim4_effect_order _ "k1" (.str "v") (by decide)⟩

/-- C7 counterexample: the constructor does not flush synchronously —
the literal argument it passes to `flushdb` is `True`, which in
redis-py's `flushdb(asynchronous=False)` signature selects the
asynchronous flush, so "the flush completes before the constructor
returns" is false of the issued command. -/
theorem claim7_counterexample :
    Cache.initFlushAsynchronous = true ∧ Cache.initFlushAsynchronous ≠ false := by
  decide

/-- C7 (amended): on construction the component issues a flush of its
whole database in asynchronous mode; the keyspace is nevertheless
emptied before the command returns (only memory reclamation is
deferred), so no key from a prior instance is accessible afterwards. -/
theorem claim7_flush_clears (st : Store) (k : String) :
    Cache.init st = st.flushdbCmd true ∧ (Cache.init st).lookup k = Option.none := by
  refine ⟨rfl, ?_⟩
  simp [Cache.init, Store.flushdbCmd, Store.lookup]

/-- C8: `Cache.get` on an absent identifier with no transform returns
the null sentinel (`None`) without raising, while the typed accessors
fail on the same identifier: `get_str` calls `.decode` on `None`
(`AttributeError`) and `get_int` calls `int(None)` (`TypeError`). -/
theorem claim8_absent_key (st : Store) (k : String)
    (h : st.lookup k = Option.none) :
    Cache.get (some st) k Option.none = .ok .none ∧
    Cache.get_str (some st) k = .error .attributeErr ∧
    Cache.get_int (some st) k = .error .typeErr := by
  have hg : st.getCmd k = .ok Option.none := by
    rw [Store.getCmd, h]
  refine ⟨?_, ?_, ?_⟩ <;>
    simp [Cache.get, Cache.get_str, Cache.get_int, hg, applyGetFn]

/-- Witness for C8 on the empty database and the key `missing`. -/
theorem claim8_absent_key_witness :
    (emptyStore 0).lookup "missing" = Option.none ∧
    (Cache.get (some (emptyStore 0)) "missing" Option.none = .ok .none ∧
     Cache.get_str (some (emptyStore 0)) "missing" = .error .attributeErr ∧
     Cache.get_int (some (emptyStore 0)) "missing" = .error .typeErr) :=
  ⟨rfl, claim8_absent_key (emptyStore 0) "missing" rfl⟩

/-! ## Iterated calls of `Cache.store`

The counter key and the two history keys of `Cache.store` evolve in
lockstep: the counter key holds the decimal call count (absent before the
first call, because the keyspace was flushed at construction) and the
history keys hold the index-aligned input and output lists (absent while
empty, because `RPUSH` creates a list on first use). -/

/-- The entry at the counter key after `m` calls since the flush. -/
def ctrEntry (m : Int) : Option Entry :=
  if m = 0 then Option.none else some ⟨.str (intBytes m), Option.none⟩

/-- The entry at a history key holding the recorded list `l`. -/
def listEntry (l : List Bytes) : Option Entry :=
  if l = [] then Option.none else some ⟨.list l, Option.none⟩

theorem Store.rpushCmd_listEntry (st : Store) (k : String) (b : Bytes) (l : List Bytes)
    (h : st.data k = listEntry l) :
    st.rpushCmd k b = .ok (st.write k ⟨.list (l ++ [b]), Option.none⟩) := by
  by_cases hl : l = []
  · subst hl
    rw [listEntry, if_pos rfl] at h
    have : st.lookup k = Option.none := by
      rw [Store.lookup, h]
    rw [Store.rpushCmd_absent st k b this]
    simp
  · rw [listEntry, if_neg hl] at h
    rw [Store.rpushCmd_list st k b l h]

theorem Store.incrCmd_ctrEntry (st : Store) (k : String) (m : Int) (hm : 0 ≤ m)
    (h : st.data k = ctrEntry m) :
    st.incrCmd k = .ok (st.write k ⟨.str (intBytes (m + 1)), Option.none⟩, m + 1) := by
  by_cases hmz : m = 0
  · subst hmz
    rw [ctrEntry, if_pos rfl] at h
    have : st.lookup k = Option.none := by
      rw [Store.lookup, h]
    rw [Store.incrCmd_absent st k this]
    norm_num
  · rw [ctrEntry, if_neg hmz] at h
    rw [Store.incrCmd_int st k m h]

theorem Store.lrangeAll_listEntry (st : Store) (k : String) (l : List Bytes)
    (h : st.data k = listEntry l) : st.lrangeAll k = .ok l := by
  by_cases hl : l = []
  · subst hl
    rw [listEntry, if_pos rfl] at h
    have : st.lookup k = Option.none := by
      rw [Store.lookup, h]
    rw [Store.lrangeAll, this]
  · rw [listEntry, if_neg hl] at h
    have : st.lookup k = some (.list l) := by
      rw [Store.lookup, h]
    rw [Store.lrangeAll, this]

theorem qn_ne_inK : ("Cache.store" : String) ≠ "Cache.store:inputs" := by decide

theorem qn_ne_outK : ("Cache.store" : String) ≠ "Cache.store:outputs" := by decide

theorem inK_ne_outK : ("Cache.store:inputs" : String) ≠ "Cache.store:outputs" := by decide

/-- One successful instrumented `Cache.store` call from a well-formed
instrumented state, with the exact update of counter and histories. -/
theorem Cache.store_step (st : Store) (k : String) (d : PyData) (m : Int)
    (li lo : List Bytes) (hm : 0 ≤ m)
    (hc : st.data "Cache.store" = ctrEntry m)
    (hi : st.data "Cache.store:inputs" = listEntry li)
    (ho : st.data "Cache.store:outputs" = listEntry lo)
    (hk1 : k ≠ "Cache.store") (hk2 : k ≠ "Cache.store:inputs")
    (hk3 : k ≠ "Cache.store:outputs") :
    ∃ st', Cache.store (some st) k d = .ok (k, some st',
        [.rpush "Cache.store:inputs" (strToBytes (strArgs d)), .incr "Cache.store",
         .set k (encodeData d), .rpush "Cache.store:outputs" (strToBytes k)]) ∧
      st'.data "Cache.store" = ctrEntry (m + 1) ∧
      st'.data "Cache.store:inputs" = listEntry (li ++ [strToBytes (strArgs d)]) ∧
      st'.data "Cache.store:outputs" = listEntry (lo ++ [strToBytes k]) := by
  have hm1 : ¬ (m + 1 = 0) := by omega
  set bi := strToBytes (strArgs d) with hbi_def
  set st1 := st.write "Cache.store:inputs" ⟨.list (li ++ [bi]), Option.none⟩ with hst1
  have hbi : st.rpushCmd "Cache.store:inputs" bi = .ok st1 :=
    Store.rpushCmd_listEntry st _ bi li hi
  have hc1 : st1.data "Cache.store" = ctrEntry m := by
    rw [hst1, Store.write_data, if_neg qn_ne_inK, hc]
  set st2 := st1.write "Cache.store" ⟨.str (intBytes (m + 1)), Option.none⟩ with hst2
  have hinc : st1.incrCmd "Cache.store" = .ok (st2, m + 1) :=
    Store.incrCmd_ctrEntry st1 _ m hm hc1
  set st3 := st2.setCmd k (encodeData d) with hst3
  have ho3 : st3.data "Cache.store:outputs" = listEntry lo := by
    rw [hst3, Store.setCmd, Store.write_data, if_neg (Ne.symm hk3), hst2,
      Store.write_data, if_neg (Ne.symm qn_ne_outK), hst1, Store.write_data,
      if_neg (Ne.symm inK_ne_outK), ho]
  set bo := strToBytes k with hbo_def
  set st4 := st3.write "Cache.store:outputs" ⟨.list (lo ++ [bo]), Option.none⟩ with hst4
  have hbo : st3.rpushCmd "Cache.store:outputs" bo = .ok st4 :=
    Store.rpushCmd_listEntry st3 _ bo lo ho3
  refine ⟨st4, ?_, ?_, ?_, ?_⟩
  · simp [Cache.store, call_history_invoker, count_calls_invoker, Cache.storeBody,
      hbi, hinc, ← hst3, hbo]
  · rw [hst4, Store.write_data, if_neg qn_ne_outK, hst3, Store.setCmd,
      Store.write_data, if_neg (Ne.symm hk1), hst2, Store.write_data, if_pos rfl,
      ctrEntry, if_neg hm1]
  · rw [hst4, Store.write_data, if_neg inK_ne_outK, hst3, Store.setCmd,
      Store.write_data, if_neg (Ne.symm hk2), hst2, Store.write_data,
      if_neg qn_ne_inK.symm, hst1, Store.write_data, if_pos rfl, listEntry,
      if_neg (by simp)]
  · rw [hst4, Store.write_data, if_pos rfl, listEntry, if_neg (by simp)]

/-- N sequential calls of `Cache.store` on the same instance: the list
of (generated key, data) pairs is processed in order, collecting the
returned identifiers. -/
def storeN (r : Option Store) : List (String × PyData) → Except PyErr (List String × Option Store)
  | [] => .ok ([], r)
  | (k, d) :: rest =>
    match Cache.store r k d with
    | .error e => .error e
    | .ok (out, r2, _) =>
      match storeN r2 rest with
      | .error e => .error e
      | .ok (outs, r3) => .ok (out :: outs, r3)

theorem storeN_invariant (ks : List (String × PyData)) :
    ∀ (st : Store) (m : Int) (li lo : List Bytes), 0 ≤ m →
    st.data "Cache.store" = ctrEntry m →
    st.data "Cache.store:inputs" = listEntry li →
    st.data "Cache.store:outputs" = listEntry lo →
    (∀ p ∈ ks, p.1 ≠ "Cache.store" ∧ p.1 ≠ "Cache.store:inputs" ∧
      p.1 ≠ "Cache.store:outputs") →
    ∃ st', storeN (some st) ks = .ok (ks.map Prod.fst, some st') ∧
      st'.data "Cache.store" = ctrEntry (m + ks.length) ∧
      st'.data "Cache.store:inputs"
        = listEntry (li ++ ks.map (fun p => strToBytes (strArgs p.2))) ∧
      st'.data "Cache.store:outputs"
        = listEntry (lo ++ ks.map (fun p => strToBytes p.1)) := by
  induction ks with
  | nil =>
    intro st m li lo hm hc hi ho _
    refine ⟨st, rfl, ?_, ?_, ?_⟩ <;> simp [hc, hi, ho]
  | cons p rest ih =>
    intro st m li lo hm hc hi ho hks
    obtain ⟨hp1, hp2, hp3⟩ := hks p (List.mem_cons_self p rest)
    obtain ⟨st', hstep, hc', hi', ho'⟩ :=
      Cache.store_step st p.1 p.2 m li lo hm hc hi ho hp1 hp2 hp3
    obtain ⟨st'', hrun, hc'', hi'', ho''⟩ :=
      ih st' (m + 1) (li ++ [strToBytes (strArgs p.2)]) (lo ++ [strToBytes p.1])
        (by omega) hc' hi' ho'
        (fun q hq => hks q (List.mem_cons_of_mem p hq))
    refine ⟨st'', ?_, ?_, ?_, ?_⟩
    · rw [show storeN (some st) (p :: rest)
          = match Cache.store (some st) p.1 p.2 with
            | .error e => .error e
            | .ok (out, r2, _) =>
              match storeN r2 rest with
              | .error e => .error e
              | .ok (outs, r3) => .ok (out :: outs, r3)
          from by cases p <;> rfl]
      rw [hstep]
      simp only [hrun, List.map_cons]
    · rw [hc'']
      congr 1
      rw [List.length_cons]
      push_cast
      omega
    · rw [hi'']
      simp [List.append_assoc]
    · rw [ho'']
      simp [List.append_assoc]

/-- The returned identifiers and final counter value of N sequential
`Cache.store` calls. -/
def storeNCounter (r : Option Store) (ks : List (String × PyData)) :
    Except PyErr (List String × Option RVal) :=
  match storeN r ks with
  | .error e => .error e
  | .ok (outs, some st') => .ok (outs, st'.lookup "Cache.store")
  | .ok (outs, Option.none) => .ok (outs, Option.none)

/-- C5: after `Cache.store` has been invoked N times on a freshly
constructed instance bound to a live store connection (with
uuid-generated keys, hence distinct from the three instrumentation
keys), the counter stored under the operation's qualified name
`Cache.store` is exactly the decimal rendering of N. -/
theorem claim5_counter (st0 : Store) (ks : List (String × PyData))
    (hks : ∀ p ∈ ks, p.1 ≠ "Cache.store" ∧ p.1 ≠ "Cache.store:inputs" ∧
      p.1 ≠ "Cache.store:outputs")
    (hne : ks ≠ []) :
    storeNCounter (some (Cache.init st0)) ks
      = .ok (ks.map Prod.fst, some (.str (intBytes ks.length))) := by
  obtain ⟨st', hrun, hc, -, -⟩ :=
    storeN_invariant ks (Cache.init st0) 0 [] [] le_rfl rfl rfl rfl hks
  have hlen0 : ks.length ≠ 0 := fun h => hne (List.length_eq_zero.mp h)
  have hc2 : st'.data "Cache.store" = some ⟨.str (intBytes ks.length), Option.none⟩ := by
    rw [hc, show (0 : Int) + ks.length = (ks.length : Int) from by omega, ctrEntry,
      if_neg (by exact_mod_cast hlen0)]
  have hl : st'.lookup "Cache.store" = some (.str (intBytes ks.length)) := by
    rw [Store.lookup, hc2]
  simp only [storeNCounter, hrun, hl]

/-- Witness for C5: two stores from a fresh instance leave the counter
at the decimal rendering of 2. -/
theorem claim5_counter_witness :
    ((∀ p ∈ [("k0", PyData.int 7), ("k1", PyData.str "x")],
        Prod.fst p ≠ "Cache.store" ∧ Prod.fst p ≠ "Cache.store:inputs" ∧
        Prod.fst p ≠ "Cache.store:outputs") ∧
      ([("k0", PyData.int 7), ("k1", PyData.str "x")]
        ≠ ([] : List (String × PyData)))) ∧
    storeNCounter (some (Cache.init (emptyStore 0)))
        [("k0", PyData.int 7), ("k1", PyData.str "x")]
      = .ok (["k0", "k1"], some (.str [50])) :=
  ⟨⟨by decide, by decide⟩,
    claim5_counter (emptyStore 0) [("k0", PyData.int 7), ("k1", PyData.str "x")]
      (by decide) (by decide)⟩

/-- The two recorded histories (inputs, outputs) after N sequential
`Cache.store` calls, read back with `LRANGE 0 -1`. -/
def storeNHistories (r : Option Store) (ks : List (String × PyData)) :
    Option (List Bytes × List Bytes) :=
  match storeN r ks with
  | .ok (_, some st') =>
    match st'.lrangeAll "Cache.store:inputs", st'.lrangeAll "Cache.store:outputs" with
    | .ok ins, .ok outs => some (ins, outs)
    | _, _ => Option.none
  | _ => Option.none

/-- C6: after N sequential `Cache.store` calls from a fresh instance the
input history is exactly the list of the N logged inputs (the `str` of
each call's argument tuple, UTF-8 encoded) and the output history is
exactly the list of the N returned identifiers, both in call order; in
particular the two histories have equal length N, and the k-th input
entry and k-th output entry both belong to call k. -/
theorem claim6_histories (st0 : Store) (ks : List (String × PyData))
    (hks : ∀ p ∈ ks, p.1 ≠ "Cache.store" ∧ p.1 ≠ "Cache.store:inputs" ∧
      p.1 ≠ "Cache.store:outputs") :
    storeNHistories (some (Cache.init st0)) ks
      = some (ks.map (fun p => strToBytes (strArgs p.2)),
          ks.map (fun p => strToBytes p.1)) ∧
    (ks.map (fun p => strToBytes (strArgs p.2))).length
      = (ks.map (fun p => strToBytes p.1)).length ∧
    (ks.map (fun p => strToBytes (strArgs p.2))).length = ks.length := by
  obtain ⟨st', hrun, -, hi, ho⟩ :=
    storeN_invariant ks (Cache.init st0) 0 [] [] le_rfl rfl rfl rfl hks
  rw [List.nil_append] at hi ho
  refine ⟨?_, by simp, by simp⟩
  have h1 : st'.lrangeAll "Cache.store:inputs"
      = .ok (ks.map (fun p => strToBytes (strArgs p.2))) :=
    Store.lrangeAll_listEntry st' _ _ hi
  have h2 : st'.lrangeAll "Cache.store:outputs"
      = .ok (ks.map (fun p => strToBytes p.1)) :=
    Store.lrangeAll_listEntry st' _ _ ho
  simp only [storeNHistories, hrun, h1, h2]

/-- Witness for C6: two stores from a fresh instance record
`["(3,)", "('y',)"]` as inputs and the two returned keys as outputs,
aligned and of equal length 2. -/
theorem claim6_histories_witness :
    (∀ p ∈ [("a0", PyData.int 3), ("a1", PyData.str "y")],
      Prod.fst p ≠ "Cache.store" ∧ Prod.fst p ≠ "Cache.store:inputs" ∧
      Prod.fst p ≠ "Cache.store:outputs") ∧
    (storeNHistories (some (Cache.init (emptyStore 0)))
        [("a0", PyData.int 3), ("a1", PyData.str "y")]
      = some ([[40, 51, 44, 41], [40, 39, 121, 39, 44, 41]],
          [[97, 48], [97, 49]]) ∧
      ([[40, 51, 44, 41], [40, 39, 121, 39, 44, 41]] : List Bytes).length
        = ([[97, 48], [97, 49]] : List Bytes).length ∧
      ([[40, 51, 44, 41], [40, 39, 121, 39, 44, 41]] : List Bytes).length = 2) :=
  ⟨by decide,
    claim6_histories (emptyStore 0) [("a0", PyData.int 3), ("a1", PyData.str "y")]
      (by decide)⟩

theorem replayCount_ctr (st : Store) (q : String) (n : Int) (hn : 0 ≤ n)
    (h : st.data q = ctrEntry n) : replayCount st q = .ok n := by
  by_cases hz : n = 0
  · subst hz
    rw [ctrEntry, if_pos rfl] at h
    have hl : st.lookup q = Option.none := by
      rw [Store.lookup, h]
    rw [replayCount, if_neg (by simp [Store.existsCmd, hl])]
  · rw [ctrEntry, if_neg hz] at h
    have hl : st.lookup q = some (.str (intBytes n)) := by
      rw [Store.lookup, h]
    rw [replayCount, if_pos (by simp [Store.existsCmd, hl])]
    rw [Store.getCmd, hl]
    simp [parseIntB_intBytes]

theorem replayLines_zip (q : String) (ss : List String) (os : List Bytes) :
    replayLines q ((ss.map strToBytes).zip os)
      = .ok (List.zipWith (fun s o => q ++ "(*" ++ s ++ ") -> " ++ pyReprBytes o) ss os) := by
  induction ss generalizing os with
  | nil => simp [replayLines]
  | cons s tl ih =>
    cases os with
    | nil => simp [replayLines]
    | cons o otl =>
      simp only [List.map_cons, List.zip_cons_cons, List.zipWith_cons_cons,
        replayLines, replayLine, bytesToStr_strToBytes]
      rw [show List.zipWith Prod.mk (tl.map strToBytes) otl
          = (tl.map strToBytes).zip otl from rfl, ih]

/-- C9: `replay` on `None`, on a callable without a bound instance, or
on a bound method whose instance has no live store connection, silently
returns without printing and without raising; on a bound method with a
live connection and the recorded instrumentation state it prints the
recorded call count and then one formatted line per recorded
(input, output) pair, in recorded order. -/
theorem claim9_replay (q : String) (st : Store) (n : Int) (inStrs : List String)
    (outs : List Bytes) (hn : 0 ≤ n)
    (hc : st.data q = ctrEntry n)
    (hi : st.data (q ++ ":inputs") = listEntry (inStrs.map strToBytes))
    (ho : st.data (q ++ ":outputs") = listEntry outs) :
    replay .noneArg = .ok [] ∧
    (∀ q2, replay (.unbound q2) = .ok []) ∧
    (∀ q2, replay (.bound q2 Option.none) = .ok []) ∧
    replay (.bound q (some st)) = .ok
      ((q ++ " was called " ++ intStr n ++ " times:") ::
        List.zipWith (fun s o => q ++ "(*" ++ s ++ ") -> " ++ pyReprBytes o)
          inStrs outs) := by
  refine ⟨rfl, fun _ => rfl, fun _ => rfl, ?_⟩
  have h1 := replayCount_ctr st q n hn hc
  have h2 : st.lrangeAll (q ++ ":inputs") = .ok (inStrs.map strToBytes) :=
    Store.lrangeAll_listEntry _ _ _ hi
  have h3 : st.lrangeAll (q ++ ":outputs") = .ok outs :=
    Store.lrangeAll_listEntry _ _ _ ho
  simp only [replay, h1, h2, h3, replayLines_zip]

/-- Witness for C9 on a one-call instrumentation state for an operation
named `f`: all three invalid argument shapes print nothing, and a valid
one prints the header and the single recorded call line. -/
theorem claim9_replay_witness :
    ((0 : Int) ≤ 1 ∧
     ((((emptyStore 0).write "f" ⟨.str [49], Option.none⟩).write "f:inputs"
        ⟨.list [[40, 49, 44, 41]], Option.none⟩).write "f:outputs"
        ⟨.list [[107]], Option.none⟩).data "f" = ctrEntry 1) ∧
    (replay .noneArg = .ok [] ∧
     replay (.unbound "f") = .ok [] ∧
     replay (.bound "f" Option.none) = .ok [] ∧
     replay (.bound "f" (some
        ((((emptyStore 0).write "f" ⟨.str [49], Option.none⟩).write "f:inputs"
          ⟨.list [[40, 49, 44, 41]], Option.none⟩).write "f:outputs"
          ⟨.list [[107]], Option.none⟩)))
       = .ok ["f was called 1 times:", "f(*(1,)) -> " ++ pyReprBytes [107]]) := by
  have h := claim9_replay "f"
    ((((emptyStore 0).write "f" ⟨.str [49], Option.none⟩).write "f:inputs"
      ⟨.list [[40, 49, 44, 41]], Option.none⟩).write "f:outputs"
      ⟨.list [[107]], Option.none⟩)
    1 ["(1,)"] [[107]] (by decide) (by decide) (by decide) (by decide)
  exact ⟨⟨by decide, by decide⟩, h.1, h.2.1 "f", h.2.2.1 "f", h.2.2.2⟩

/-! ## Scenarios for the `get_page` claims -/

/-- Summary of two `get_page` calls on the same url, `gap` seconds
apart: per call the returned content and the number of times the
underlying fetcher ran, plus the cache entry under `result:<url>` after
the first call and the `count:<url>` value after both. -/
def twoCallsFull (f : String → FetchOutcome) (st : Store) (url : String) (gap : Nat) :
    Except PyErr ((String × Nat) × Option Entry × (String × Nat) × Option RVal) :=
  match get_page f st url with
  | .error e => .error e
  | .ok (c1, st1, n1) =>
    match get_page f (st1.advance gap) url with
    | .error e => .error e
    | .ok (c2, st2, n2) =>
      .ok ((c1, n1), st1.data ("result:" ++ url), (c2, n2),
        st2.lookup ("count:" ++ url))

/-- Summary of a single `get_page` call: returned content, number of
fetcher invocations, and the cache entry under `result:<url>` after it. -/
def oneCallSummary (f : String → FetchOutcome) (st : Store) (url : String) :
    Except PyErr (String × Nat × Option Entry) :=
  match get_page f st url with
  | .error e => .error e
  | .ok (c, st1, n) => .ok (c, n, st1.data ("result:" ++ url))

theorem countKey_ne_resultKey (url : String) : ("count:" ++ url) ≠ ("result:" ++ url) := by
  intro h
  have h3 : ("count:").data ++ url.data = ("result:").data ++ url.data := by
    rw [← String.data_append, ← String.data_append, h]
  have h4 : ('c' :: 'o' :: 'u' :: 'n' :: 't' :: ':' :: url.data)
      = ('r' :: 'e' :: 's' :: 'u' :: 'l' :: 't' :: ':' :: url.data) := h3
  injection h4 with h5 _
  exact absurd h5 (by decide)

theorem String.ne_empty_data {s : String} (h : s ≠ "") : s.data ≠ [] := by
  intro hd
  apply h
  cases s with
  | mk l =>
    have : l = [] := hd
    rw [this]

theorem Store.lookup_data_ttl (st : Store) (k : String) (b : Bytes) (t : Nat)
    (h : st.data k = some ⟨.str b, some t⟩) (ht : st.now < t) :
    st.lookup k = some (.str b) := by
  rw [Store.lookup, h]
  exact if_pos ht

/-- A `get_page` call whose cache check misses: either `result:<url>` is
absent (or expired), or it holds the empty byte string, which the code's
truthiness test treats the same way.  The counter is incremented, the
body runs once, and its result is cached under `SETEX 10`. -/
theorem get_page_miss (f : String → FetchOutcome) (st : Store) (url : String) (m : Int)
    (hm : 0 ≤ m)
    (hcount : st.data ("count:" ++ url) = ctrEntry m)
    (hres : st.lookup ("result:" ++ url) = Option.none ∨
      st.lookup ("result:" ++ url) = some (.str [])) :
    get_page f st url = .ok (get_page_body f url,
      (st.write ("count:" ++ url) ⟨.str (intBytes (m + 1)), Option.none⟩).setexCmd
        ("result:" ++ url) 10 (strToBytes (get_page_body f url)), 1) := by
  have hkne := countKey_ne_resultKey url
  have hincr := Store.incrCmd_ctrEntry st ("count:" ++ url) m hm hcount
  have hlook : (st.write ("count:" ++ url)
        ⟨.str (intBytes (m + 1)), Option.none⟩).lookup ("result:" ++ url)
      = st.lookup ("result:" ++ url) :=
    Store.lookup_write_ne st _ _ _ (Ne.symm hkne)
  rcases hres with hres | hres
  · have hget : (st.write ("count:" ++ url)
          ⟨.str (intBytes (m + 1)), Option.none⟩).getCmd ("result:" ++ url)
        = .ok Option.none := by
      rw [Store.getCmd, hlook, hres]
    simp only [get_page, data_cacher_invoker, hincr, hget]
  · have hget : (st.write ("count:" ++ url)
          ⟨.str (intBytes (m + 1)), Option.none⟩).getCmd ("result:" ++ url)
        = .ok (some ([] : Bytes)) := by
      rw [Store.getCmd, hlook, hres]
    simp only [get_page, data_cacher_invoker, hincr, hget]
    simp

/-- A `get_page` call whose cache check hits a truthy (nonempty,
unexpired) entry: only the counter is incremented, and the decoded
cached bytes are returned without running the body. -/
theorem get_page_hit (f : String → FetchOutcome) (st : Store) (url : String) (m : Int)
    (b : Bytes) (content : String) (hm : 0 ≤ m)
    (hcount : st.data ("count:" ++ url) = ctrEntry m)
    (hres : st.lookup ("result:" ++ url) = some (.str b))
    (hb : b ≠ [])
    (hdec : bytesToStr b = some content) :
    get_page f st url = .ok (content,
      st.write ("count:" ++ url) ⟨.str (intBytes (m + 1)), Option.none⟩, 0) := by
  have hkne := countKey_ne_resultKey url
  have hincr := Store.incrCmd_ctrEntry st ("count:" ++ url) m hm hcount
  have hlook : (st.write ("count:" ++ url)
        ⟨.str (intBytes (m + 1)), Option.none⟩).lookup ("result:" ++ url)
      = st.lookup ("result:" ++ url) :=
    Store.lookup_write_ne st _ _ _ (Ne.symm hkne)
  have hget : (st.write ("count:" ++ url)
        ⟨.str (intBytes (m + 1)), Option.none⟩).getCmd ("result:" ++ url)
      = .ok (some b) := by
    rw [Store.getCmd, hlook, hres]
  simp only [get_page, data_cacher_invoker, hincr, hget, hdec, if_pos hb]

/-- Two `get_page` calls on a url with no prior state, the second within
the TTL window, when the body's result is nonempty: the fetcher runs
exactly once, the result is cached for 10 time units, the second call
returns the identical content from the cache, and the access counter
ends at 2. -/
theorem twoCallsFull_fresh (f : String → FetchOutcome) (url : String) (st : Store)
    (gap : Nat)
    (hcount : st.data ("count:" ++ url) = ctrEntry 0)
    (hres : st.lookup ("result:" ++ url) = Option.none)
    (hgap : gap < 10)
    (hne : get_page_body f url ≠ "") :
    twoCallsFull f st url gap = .ok
      ((get_page_body f url, 1),
       some ⟨.str (strToBytes (get_page_body f url)), some (st.now + 10)⟩,
       (get_page_body f url, 0),
       some (.str (intBytes 2))) := by
  have h1 := get_page_miss f st url 0 le_rfl hcount (Or.inl hres)
  rw [show (0 : Int) + 1 = 1 from rfl] at h1
  have hkne := countKey_ne_resultKey url
  have hd2 : ((st.write ("count:" ++ url) ⟨.str (intBytes 1), Option.none⟩).setexCmd
        ("result:" ++ url) 10 (strToBytes (get_page_body f url))).data ("result:" ++ url)
      = some ⟨.str (strToBytes (get_page_body f url)), some (st.now + 10)⟩ := by
    rw [Store.setexCmd, Store.write_data, if_pos rfl]
    rfl
  have hcount2 : (((st.write ("count:" ++ url) ⟨.str (intBytes 1), Option.none⟩).setexCmd
        ("result:" ++ url) 10 (strToBytes (get_page_body f url))).advance gap).data
        ("count:" ++ url) = ctrEntry 1 := by
    show ((st.write ("count:" ++ url) ⟨.str (intBytes 1), Option.none⟩).setexCmd
        ("result:" ++ url) 10 (strToBytes (get_page_body f url))).data ("count:" ++ url)
      = ctrEntry 1
    rw [Store.setexCmd, Store.write_data, if_neg hkne, Store.write_data, if_pos rfl,
      ctrEntry, if_neg (by norm_num)]
  have hres2 : (((st.write ("count:" ++ url) ⟨.str (intBytes 1), Option.none⟩).setexCmd
        ("result:" ++ url) 10 (strToBytes (get_page_body f url))).advance gap).lookup
        ("result:" ++ url) = some (.str (strToBytes (get_page_body f url))) := by
    refine Store.lookup_data_ttl _ _ _ (st.now + 10) hd2 ?_
    show st.now + gap < st.now + 10
    omega
  have hbne : strToBytes (get_page_body f url) ≠ [] :=
    strToBytes_ne_nil (String.ne_empty_data hne)
  have h2 := get_page_hit f
    (((st.write ("count:" ++ url) ⟨.str (intBytes 1), Option.none⟩).setexCmd
      ("result:" ++ url) 10 (strToBytes (get_page_body f url))).advance gap)
    url 1 (strToBytes (get_page_body f url)) (get_page_body f url) (by norm_num)
    hcount2 hres2 hbne (bytesToStr_strToBytes _)
  rw [show (1 : Int) + 1 = 2 from rfl] at h2
  have hctr : ((((st.write ("count:" ++ url) ⟨.str (intBytes 1), Option.none⟩).setexCmd
        ("result:" ++ url) 10 (strToBytes (get_page_body f url))).advance gap).write
        ("count:" ++ url) ⟨.str (intBytes 2), Option.none⟩).lookup ("count:" ++ url)
      = some (.str (intBytes 2)) :=
    Store.lookup_write_self _ _ _
  simp only [twoCallsFull, h1, h2]
  rw [hd2, hctr]

/-- C2 counterexample: when the fetched content is the empty string, the
second call within the TTL window does invoke the underlying fetcher
again (its invocation count is 1, not the 0 the claim requires), because
the code's truthiness test treats the cached empty result as a miss. -/
theorem claim2_counterexample :
    (twoCallsFull (fun _ => .success "") (emptyStore 0) "u" 0).map
        (fun r => (r.1, r.2.2.1)) = .ok (("", 1), ("", 1)) ∧
    (1 : Nat) ≠ 0 := by
  constructor
  · rfl
  · decide

/-- C2 (amended): every `get_page` call increments `count:<url>`
(regardless of hit or miss), and — provided the first fetched content is
nonempty — a first call on a fresh url invokes the underlying fetcher
once, caches the content for 10 time units, and a second call within the
TTL window returns the identical content without invoking the fetcher
again, leaving the access counter at 2.  (For empty content the second
call treats the cached entry as a miss and fetches again; the counter
still ends at 2.) -/
theorem claim2_count_and_cache (f : String → FetchOutcome) (url content : String)
    (st : Store) (gap : Nat)
    (hf : f url = .success content)
    (hne : content ≠ "")
    (hcount : st.data ("count:" ++ url) = ctrEntry 0)
    (hres : st.lookup ("result:" ++ url) = Option.none)
    (hgap : gap < 10) :
    twoCallsFull f st url gap = .ok
      ((content, 1),
       some ⟨.str (strToBytes content), some (st.now + 10)⟩,
       (content, 0),
       some (.str (intBytes 2))) := by
  have hbody : get_page_body f url = content := by
    rw [get_page_body, hf]
  have h := twoCallsFull_fresh f url st gap hcount hres hgap (by rw [hbody]; exact hne)
  rw [hbody] at h
  exact h

/-- Witness for C2 (amended): fetching `hi` twice 3 seconds apart from
a fresh store fetches once, caches `hi` until time 10, serves the second
call from the cache, and leaves the counter at 2. -/
theorem claim2_count_and_cache_witness :
    ((fun (_ : String) => FetchOutcome.success "hi") "u" = .success "hi" ∧
     ("hi" : String) ≠ "" ∧ (3 : Nat) < 10) ∧
    twoCallsFull (fun _ => .success "hi") (emptyStore 0) "u" 3 = .ok
      (("hi", 1), some ⟨.str [104, 105], some 10⟩, ("hi", 0),
       some (.str [50])) :=
  ⟨⟨rfl, by decide, by decide⟩,
    claim2_count_and_cache (fun _ => .success "hi") "u" "hi" (emptyStore 0) 3
      rfl (by decide) rfl rfl (by decide)⟩

/-- C3: when the underlying fetch fails, `get_page` returns the
formatted error string instead of raising, caches it under
`result:<url>` with the same fixed 10-time-unit expiration as any valid
result, and a repeated call within the TTL window returns the error
string verbatim from the cache (without invoking the fetcher again);
the access counter still counts both calls. -/
theorem claim3_error_cached (f : String → FetchOutcome) (url msg : String)
    (st : Store) (gap : Nat)
    (hf : f url = .failure msg)
    (hcount : st.data ("count:" ++ url) = ctrEntry 0)
    (hres : st.lookup ("result:" ++ url) = Option.none)
    (hgap : gap < 10) :
    twoCallsFull f st url gap = .ok
      (("Error fetching the URL: " ++ msg, 1),
       some ⟨.str (strToBytes ("Error fetching the URL: " ++ msg)),
         some (st.now + 10)⟩,
       ("Error fetching the URL: " ++ msg, 0),
       some (.str (intBytes 2))) := by
  have hbody : get_page_body f url = "Error fetching the URL: " ++ msg := by
    rw [get_page_body, hf]
  have hnon : ("Error fetching the URL: " ++ msg) ≠ "" := by
    intro h
    have hlen := congrArg String.length h
    rw [String.length_append] at hlen
    have h24 : ("Error fetching the URL: ").length = 24 := rfl
    have h0 : ("" : String).length = 0 := rfl
    omega
  have h := twoCallsFull_fresh f url st gap hcount hres hgap (by rw [hbody]; exact hnon)
  rw [hbody] at h
  exact h

/-- Witness for C3: a fetcher that always fails with message `boom`
yields the formatted error string, cached until time 10 and served
verbatim on the second call; the counter ends at 2. -/
theorem claim3_error_cached_witness :
    ((fun (_ : String) => FetchOutcome.failure "boom") "u" = .failure "boom" ∧
     (3 : Nat) < 10) ∧
    twoCallsFull (fun _ => .failure "boom") (emptyStore 0) "u" 3 = .ok
      (("Error fetching the URL: boom", 1),
       some ⟨.str (strToBytes "Error fetching the URL: boom"), some 10⟩,
       ("Error fetching the URL: boom", 0),
       some (.str [50])) :=
  ⟨⟨rfl, by decide⟩,
    claim3_error_cached (fun _ => .failure "boom") "u" "boom" (emptyStore 0) 3
      rfl rfl rfl (by decide)⟩

/-- C10: when the cached entry under `result:<url>` is present and
unexpired but holds the empty string, `get_page` treats it as absent:
it invokes the underlying fetcher again (invocation count 1) and
overwrites the cache entry with the fresh result, rather than returning
the cached empty content. -/
theorem claim10_empty_entry_refetch (f : String → FetchOutcome) (url : String)
    (st : Store) (m : Int) (hm : 0 ≤ m)
    (hcount : st.data ("count:" ++ url) = ctrEntry m)
    (hres : st.lookup ("result:" ++ url) = some (.str [])) :
    oneCallSummary f st url = .ok (get_page_body f url, 1,
      some ⟨.str (strToBytes (get_page_body f url)), some (st.now + 10)⟩) := by
  have h1 := get_page_miss f st url m hm hcount (Or.inr hres)
  have hd : ((st.write ("count:" ++ url) ⟨.str (intBytes (m + 1)), Option.none⟩).setexCmd
        ("result:" ++ url) 10 (strToBytes (get_page_body f url))).data ("result:" ++ url)
      = some ⟨.str (strToBytes (get_page_body f url)), some (st.now + 10)⟩ := by
    rw [Store.setexCmd, Store.write_data, if_pos rfl]
    rfl
  simp only [oneCallSummary, h1, hd]

/-- Witness for C10: with `result:u` cached as the empty string, a call
fetches `new` (one fetcher invocation) and overwrites the entry. -/
theorem claim10_empty_entry_refetch_witness :
    ((0 : Int) ≤ 0 ∧
     ((emptyStore 5).write "result:u" ⟨.str [], Option.none⟩).lookup ("result:" ++ "u")
       = some (.str []) ∧
     ((emptyStore 5).write "result:u" ⟨.str [], Option.none⟩).data ("count:" ++ "u")
       = ctrEntry 0) ∧
    oneCallSummary (fun _ => .success "new")
        ((emptyStore 5).write "result:u" ⟨.str [], Option.none⟩) "u"
      = .ok ("new", 1, some ⟨.str [110, 101, 119], some 15⟩) :=
  ⟨⟨by decide, by decide, by decide⟩,
    claim10_empty_entry_refetch (fun _ => .success "new") "u"
      ((emptyStore 5).write "result:u" ⟨.str [], Option.none⟩) 0 (by decide)
      (by decide) (by decide)⟩
